import Mathlib

/-!
Verification of the Open-LLM-VTuber RAG memory subsystem.

This file gives a shallow embedding of the core of the repository:
- the text chunker (`ChromaRAG._chunk_text` in `chroma_rag.py`),
- the dialogue memory store (`DialogueMemory` in `dialogue_memory.py`):
  `add_item`, `query`, `set_user_profile`, `add_to_user_profile`,
  `get_user_profile`, `delete_older_than_days`,
- the background consolidation scheduler (`process_memory_background`
  in `memory_processor.py`).

Python strings are modelled as Lean `String` (lists of characters under the
hood); `str.strip()` is modelled by `pyStrip`, which drops whitespace from
both ends.  Machine integers of Python are unbounded, so `Nat`/`Int` model
them directly.  Fallible external collaborators (the LLM and the vector
store adapter) are modelled as explicit oracle functions returning
`Except String`.
-/

namespace Vtuber

/-- Whitespace test used by the strip model (Python `str.strip()` drops
whitespace on both ends). -/
def wsp (c : Char) : Bool := c.isWhitespace

/-- `str.strip()` on a list of characters: drop leading and trailing
whitespace. -/
def stripL (l : List Char) : List Char :=
  ((l.dropWhile wsp).reverse.dropWhile wsp).reverse

/-- `str.strip()` on a `String`. -/
def pyStrip (s : String) : String := ⟨stripL s.data⟩

/-! ### Chunker (`ChromaRAG._chunk_text`)

The Python source is a `while start < len(text)` loop:

```
start = 0
while start < len(text):
    end = start + chunk_size
    chunk = text[start:end]
    chunks.append(chunk)
    start = end - chunk_overlap
    if start >= len(text):
        break
return chunks
```

The loop is embedded with explicit fuel: `chunkLoop ... fuel start` returns
`none` when the fuel runs out before the loop exits, so `none` for every
fuel value witnesses divergence of the source loop.  `text[start:end]` is
`(text.drop start).take chunk_size`.  The Python update
`start = end - chunk_overlap` is `start + chunk_size - chunk_overlap`; for
`chunk_overlap ≤ chunk_size` (every regime considered below) the truncated
`Nat` subtraction agrees with Python's integer subtraction, since
`start + chunk_size ≥ chunk_overlap`. -/
def chunkLoop (chunk_size chunk_overlap : Nat) (text : List Char) :
    Nat → Nat → Option (List (List Char))
  | 0, _ => none
  | fuel + 1, start =>
    if start < text.length then
      let chunk := (text.drop start).take chunk_size
      let next := start + chunk_size - chunk_overlap
      if text.length ≤ next then
        some [chunk]
      else
        match chunkLoop chunk_size chunk_overlap text fuel next with
        | none => none
        | some rest => some (chunk :: rest)
    else
      some []

/-- `ChromaRAG._chunk_text`: strip the text, return `[]` when blank,
otherwise run the chunking loop.  The fuel `length + 1` is enough whenever
the loop terminates at all, because the start position is strictly
increasing then. -/
def chunk_text (text : List Char) (chunk_size chunk_overlap : Nat) :
    Option (List (List Char)) :=
  let t := stripL text
  if t = [] then some []
  else chunkLoop chunk_size chunk_overlap t (t.length + 1) 0

/-- Concatenation of chunks with the leading `ov` characters of every chunk
removed. -/
def dropConcat (ov : Nat) : List (List Char) → List Char
  | [] => []
  | c :: rest => c.drop ov ++ dropConcat ov rest

/-- Concatenation of chunks with the leading `ov` characters of every chunk
after the first removed (the reconstruction reading of the spec). -/
def reconstruct (ov : Nat) : List (List Char) → List Char
  | [] => []
  | c :: rest => c ++ dropConcat ov rest

/-- At the failing input (`chunk_size = 1`, `chunk_overlap = 1`, a two
character text) the loop's start position is updated to
`start + 1 - 1 = start`: it never advances, so no amount of fuel completes
the loop. -/
theorem chunkLoop_stuck (t : List Char) (ht : t ≠ []) :
    ∀ fuel, chunkLoop 1 1 t fuel 0 = none := by
  intro fuel
  induction fuel with
  | zero => rfl
  | succ n ih =>
    have hlen : 0 < t.length := List.length_pos.mpr ht
    simp only [chunkLoop, if_pos hlen]
    have hnext : (0 + 1 - 1 : Nat) = 0 := rfl
    rw [hnext]
    rw [if_neg (by omega)]
    rw [ih]

/-- C1: the chunker has no guard against non-positive advancement: with
`chunk_size = 1` and `chunk_overlap = 1` on the text `"ab"` the while loop
never advances its start position, so it loops forever.  `chunk_text`
(which runs the loop with the canonical fuel) reports divergence, and the
fueled loop fails to complete for every fuel value. -/
theorem C1_chunk_unguarded_diverges :
    chunk_text "ab".data 1 1 = none ∧
      ∀ fuel, chunkLoop 1 1 (stripL "ab".data) fuel 0 = none := by
  have hstrip : stripL "ab".data = "ab".data := by decide
  constructor
  · show chunk_text "ab".data 1 1 = none
    unfold chunk_text
    rw [hstrip]
    rw [if_neg (by decide)]
    exact chunkLoop_stuck _ (by decide) _
  · intro fuel
    rw [hstrip]
    exact chunkLoop_stuck _ (by decide) fuel

/-- Witness: the divergence is observable at any concrete fuel value. -/
theorem C1_chunk_unguarded_diverges_witness :
    chunkLoop 1 1 (stripL "ab".data) 5 0 = none :=
  C1_chunk_unguarded_diverges.2 5

/-- Slicing commutes with dropping a prefix: `text[start:end][ov:]` is the
window of length `cs - ov` starting `ov` later. -/
lemma take_then_drop (x : List Char) (cs ov : Nat) (h : ov ≤ cs) :
    (x.take cs).drop ov = (x.drop ov).take (cs - ov) := by
  have h' := List.take_drop ov (cs - ov) x
  rw [Nat.add_sub_cancel' h] at h'
  exact h'.symm

/-- Full characterization of the chunking loop in the valid regime
`chunk_overlap < chunk_size`: with enough fuel it completes, every chunk is
the window `t[start + i*(cs-ov) : start + i*(cs-ov) + cs]`, removing each
later chunk's leading overlap and concatenating reconstructs the remaining
text, and dropping the overlap of every chunk reconstructs the text from
`start + ov`. -/
lemma chunkLoop_sound (cs ov : Nat) (hov : ov < cs) (t : List Char) :
    ∀ fuel start, start < t.length → t.length - start ≤ fuel →
      ∃ l, chunkLoop cs ov t fuel start = some l ∧
        l ≠ [] ∧
        (∀ i, i < l.length →
          l[i]? = some ((t.drop (start + i * (cs - ov))).take cs)) ∧
        reconstruct ov l = t.drop start ∧
        dropConcat ov l = t.drop (start + ov) := by
  intro fuel
  induction fuel with
  | zero => intro start h1 h2; omega
  | succ n ih =>
    intro start h1 h2
    simp only [chunkLoop, if_pos h1]
    have hd : start + cs - ov = start + (cs - ov) := by omega
    by_cases hnext : t.length ≤ start + cs - ov
    · rw [if_pos hnext]
      have hfit : t.length - start ≤ cs - ov := by omega
      have hdrop : (t.drop start).length ≤ cs := by
        rw [List.length_drop]; omega
      refine ⟨[(t.drop start).take cs], rfl, by simp, ?_, ?_, ?_⟩
      · intro i hi
        simp only [List.length_singleton] at hi
        have h0 : i = 0 := Nat.lt_one_iff.mp hi
        subst h0
        simp
      · show (t.drop start).take cs ++ dropConcat ov [] = t.drop start
        rw [List.take_of_length_le hdrop]
        simp [dropConcat]
      · show ((t.drop start).take cs).drop ov ++ dropConcat ov [] = t.drop (start + ov)
        rw [take_then_drop _ _ _ (Nat.le_of_lt hov)]
        rw [List.drop_drop]
        have hdrop2 : (t.drop (start + ov)).length ≤ cs - ov := by
          rw [List.length_drop]; omega
        rw [List.take_of_length_le hdrop2]
        simp [dropConcat]
    · rw [if_neg hnext]
      push_neg at hnext
      have hlt : start + cs - ov < t.length := hnext
      have hfuel : t.length - (start + cs - ov) ≤ n := by omega
      obtain ⟨rest, hrest, hne, hget, hrec, hdc⟩ := ih (start + cs - ov) hlt hfuel
      rw [hrest]
      refine ⟨(t.drop start).take cs :: rest, rfl, by simp, ?_, ?_, ?_⟩
      · intro i hi
        match i with
        | 0 => simp
        | j + 1 =>
          have hj : j < rest.length := by simpa using hi
          have := hget j hj
          simp only [List.getElem?_cons_succ]
          rw [this]
          have harith : start + cs - ov + j * (cs - ov) = start + (j + 1) * (cs - ov) := by
            rw [Nat.succ_mul]; omega
          rw [harith]
      · show (t.drop start).take cs ++ dropConcat ov rest = t.drop start
        rw [hdc]
        have harith : start + cs - ov + ov = start + cs := by omega
        rw [harith]
        have : t.drop (start + cs) = (t.drop start).drop cs := by
          rw [List.drop_drop]
        rw [this, List.take_append_drop]
      · show ((t.drop start).take cs).drop ov ++ dropConcat ov rest =
          t.drop (start + ov)
        rw [hdc, take_then_drop _ _ _ (Nat.le_of_lt hov), List.drop_drop]
        have harith : start + cs - ov + ov = start + ov + (cs - ov) := by omega
        rw [harith]
        have : t.drop (start + ov + (cs - ov)) = (t.drop (start + ov)).drop (cs - ov) := by
          rw [List.drop_drop]
        rw [this, List.take_append_drop]

/-- C9 counterexample: for the text `" 0123456789"` (leading space, ten
content characters) with `chunk_size = 8`, `chunk_overlap = 4`, the chunker
produces three chunks of lengths 8, 6, 2 — the middle chunk is not the last
yet is shorter than `chunk_size` — and the overlap-removed concatenation
reconstructs the trimmed text, not the original text.  This refutes the
claim as stated (reconstructs `t`; every chunk except the last has length
exactly `chunkSize`). -/
theorem C9_chunk_claim_counterexample :
    ¬ (reconstruct 4 ((chunk_text " 0123456789".data 8 4).getD []) =
          " 0123456789".data ∧
       ∀ i < ((chunk_text " 0123456789".data 8 4).getD []).length - 1,
         (((chunk_text " 0123456789".data 8 4).getD []).getD i []).length = 8) := by
  decide

/-- C9 (amended): for `chunk_overlap < chunk_size`, the chunker terminates
and produces the windows of the trimmed text at starts
`i * (chunk_size - chunk_overlap)`; overlap-removed concatenation
reconstructs the trimmed text; chunk `i` has length
`min chunk_size (length - i * (chunk_size - chunk_overlap))` (so a chunk
before the last may be shorter than `chunk_size` once its window overruns
the end); blank input yields the empty sequence. -/
theorem C9_chunk_text_characterization (text : List Char) (cs ov : Nat)
    (hov : ov < cs) :
    ∃ l, chunk_text text cs ov = some l ∧
      (stripL text = [] → l = []) ∧
      reconstruct ov l = stripL text ∧
      (∀ i, i < l.length →
        l[i]? = some (((stripL text).drop (i * (cs - ov))).take cs)) ∧
      (∀ i, i < l.length →
        (l.getD i []).length =
          min cs ((stripL text).length - i * (cs - ov))) := by
  by_cases hempty : stripL text = []
  · refine ⟨[], ?_, fun _ => rfl, by simp [reconstruct, hempty], by simp, by simp⟩
    unfold chunk_text
    rw [if_pos hempty]
  · have hlen : 0 < (stripL text).length := List.length_pos.mpr hempty
    obtain ⟨l, hloop, hne, hget, hrec, _⟩ :=
      chunkLoop_sound cs ov hov (stripL text) ((stripL text).length + 1) 0
        hlen (by omega)
    refine ⟨l, ?_, fun h => absurd h hempty, by simpa using hrec, ?_, ?_⟩
    · unfold chunk_text
      rw [if_neg hempty]
      exact hloop
    · intro i hi
      simpa using hget i hi
    · intro i hi
      have h := hget i hi
      rw [Nat.zero_add] at h
      have hsome : l[i]? = some (l.getD i []) := by
        rw [List.getD_eq_getElem?_getD, List.getElem?_eq_getElem hi]
        simp
      rw [hsome] at h
      have hgd := Option.some.inj h
      rw [hgd, List.length_take, List.length_drop]

/-- Witness for C9: at `"abcde"` with `chunk_size = 3`, `chunk_overlap = 1`
the hypothesis `1 < 3` holds and the characterization applies. -/
theorem C9_chunk_text_characterization_witness :
    (1 : Nat) < 3 ∧
      ∃ l, chunk_text "abcde".data 3 1 = some l ∧
        (stripL "abcde".data = [] → l = []) ∧
        reconstruct 1 l = stripL "abcde".data ∧
        (∀ i, i < l.length →
          l[i]? = some (((stripL "abcde".data).drop (i * (3 - 1))).take 3)) ∧
        (∀ i, i < l.length →
          (l.getD i []).length =
            min 3 ((stripL "abcde".data).length - i * (3 - 1))) :=
  ⟨by decide, C9_chunk_text_characterization "abcde".data 3 1 (by decide)⟩

/-! ### Properties of the strip model -/

lemma dropWhile_dropWhile (p : Char → Bool) (l : List Char) :
    (l.dropWhile p).dropWhile p = l.dropWhile p := by
  induction l with
  | nil => rfl
  | cons a l ih =>
    by_cases h : p a
    · rw [List.dropWhile_cons_of_pos h]; exact ih
    · rw [List.dropWhile_cons_of_neg h, List.dropWhile_cons_of_neg h]

lemma dropWhile_head?_false (p : Char → Bool) (l : List Char) (c : Char)
    (h : (l.dropWhile p).head? = some c) : p c = false := by
  induction l with
  | nil => simp at h
  | cons a l ih =>
    by_cases hp : p a
    · rw [List.dropWhile_cons_of_pos hp] at h; exact ih h
    · rw [List.dropWhile_cons_of_neg hp] at h
      simp only [List.head?_cons, Option.some.injEq] at h
      subst h
      exact Bool.not_eq_true _ ▸ eq_false_of_ne_true hp

lemma dropWhile_eq_self_of_head (p : Char → Bool) (l : List Char) (c : Char)
    (hc : l.head? = some c) (hpc : p c = false) : l.dropWhile p = l := by
  cases l with
  | nil => rfl
  | cons a t =>
    simp only [List.head?_cons, Option.some.injEq] at hc
    subst hc
    exact List.dropWhile_cons_of_neg (by simp [hpc])

lemma prefix_head? (l₁ l₂ : List Char) (h : l₁ <+: l₂) (hne : l₁ ≠ []) :
    l₂.head? = l₁.head? := by
  obtain ⟨r, rfl⟩ := h
  cases l₁ with
  | nil => exact absurd rfl hne
  | cons a t => rfl

/-- Stripping is idempotent: `x.strip().strip() == x.strip()`. -/
lemma stripL_idem (l : List Char) : stripL (stripL l) = stripL l := by
  unfold stripL
  by_cases hB : (l.dropWhile wsp).reverse.dropWhile wsp = []
  · rw [hB]
    rfl
  · set A := l.dropWhile wsp with hAdef
    set B := A.reverse.dropWhile wsp with hBdef
    have hBrev_pre : B.reverse <+: A := by
      have h1 : B <:+ A.reverse := by rw [hBdef]; exact List.dropWhile_suffix wsp
      have h2 := List.reverse_prefix.mpr h1
      rwa [List.reverse_reverse] at h2
    have hBrev_ne : B.reverse ≠ [] := by
      simpa using hB
    have hA_ne : A ≠ [] := by
      intro h
      rw [h] at hBrev_pre
      exact hBrev_ne (List.prefix_nil.mp hBrev_pre)
    obtain ⟨c, hc⟩ : ∃ c, A.head? = some c := by
      cases hAx : A with
      | nil => exact absurd hAx hA_ne
      | cons a t => exact ⟨a, rfl⟩
    have hwc : wsp c = false := by
      apply dropWhile_head?_false wsp l c
      rw [← hAdef]; exact hc
    have hBrev_head : B.reverse.head? = some c :=
      (prefix_head? _ _ hBrev_pre hBrev_ne).symm.trans hc
    rw [dropWhile_eq_self_of_head wsp B.reverse c hBrev_head hwc]
    rw [List.reverse_reverse, hBdef, dropWhile_dropWhile]

/-- `pyStrip` is idempotent. -/
lemma pyStrip_idem (s : String) : pyStrip (pyStrip s) = pyStrip s := by
  unfold pyStrip
  exact congrArg String.mk (stripL_idem s.data)

/-! ### Memory Store (`DialogueMemory`)

A stored memory item: document id, content, and the metadata fields
(`role`, `history_uid`, `conf_uid`, `timestamp`) that `add_item` records.
The store is the list of items in insertion order (the ChromaDB collection,
with `add` appending).  External nondeterminism (uuid generation and the
clock) is passed in as explicit arguments `doc_id` and `now`. -/
structure MemoryItem where
  id : String
  content : String
  role : String
  history_uid : String
  conf_uid : String
  timestamp : Nat
deriving Repr, DecidableEq

abbrev Store := List MemoryItem

def ROLE_USER : String := "user"
def ROLE_ASSISTANT : String := "assistant"
def ROLE_FACT : String := "fact"
def ROLE_SUMMARY : String := "summary"
def ROLE_USER_PROFILE : String := "user_profile"

/-- Roles that are never deleted by cleanup (facts and profile persist). -/
def PERSISTENT_ROLES : List String := [ROLE_FACT, ROLE_USER_PROFILE]

/-- The five documented roles of the data model. -/
def VALID_ROLES : List String :=
  [ROLE_USER, ROLE_ASSISTANT, ROLE_FACT, ROLE_SUMMARY, ROLE_USER_PROFILE]

/-- `DialogueMemory.add_item`: no-op returning the empty id when the content
is blank, otherwise append an item with the stripped content and the
metadata `{role, history_uid, conf_uid, timestamp}`.  The source performs no
validation of `role`. -/
def add_item (doc_id : String) (now : Nat)
    (role content history_uid conf_uid : String) (s : Store) :
    String × Store :=
  if pyStrip content = "" then ("", s)
  else (doc_id, s ++ [⟨doc_id, pyStrip content, role, history_uid, conf_uid, now⟩])

/-- C3 counterexample: `add_item` with the out-of-taxonomy role `"bogus"`
and non-blank content stores the item (count goes from 0 to 1), records the
out-of-taxonomy role verbatim, returns the generated id, and raises no
error — contradicting the claim that a ValidationError is surfaced and
nothing is stored. -/
theorem C3_role_not_validated_counterexample :
    (add_item "id1" 0 "bogus" "hi" "" "" []).2.length = 1 ∧
      (add_item "id1" 0 "bogus" "hi" "" "" []).1 = "id1" ∧
      ((add_item "id1" 0 "bogus" "hi" "" "" []).2.getD 0
        ⟨"", "", "", "", "", 0⟩).role = "bogus" ∧
      ¬ "bogus" ∈ VALID_ROLES := by
  decide

/-- C3 (amended): `add_item` performs no role validation: with non-blank
content it stores the item with exactly the caller's role string (whatever
it is) and returns the generated id; no error is raised and the five-role
taxonomy is a documented caller convention only. -/
theorem C3_add_item_stores_any_role (doc_id : String) (now : Nat)
    (role content history_uid conf_uid : String) (s : Store)
    (h : pyStrip content ≠ "") :
    add_item doc_id now role content history_uid conf_uid s =
      (doc_id, s ++ [⟨doc_id, pyStrip content, role, history_uid, conf_uid, now⟩]) := by
  unfold add_item
  rw [if_neg h]

/-- Witness for C3's amended theorem at a concrete out-of-taxonomy role. -/
theorem C3_add_item_stores_any_role_witness :
    pyStrip "hi" ≠ "" ∧
      add_item "id1" 0 "bogus" "hi" "" "" [] =
        ("id1", [⟨"id1", pyStrip "hi", "bogus", "", "", 0⟩]) :=
  ⟨by decide, C3_add_item_stores_any_role "id1" 0 "bogus" "hi" "" "" [] (by decide)⟩

/-- `DialogueMemory.set_user_profile`: no-op when the content is blank,
otherwise append a new `user_profile` item via `add_item` with the stripped
content. -/
def set_user_profile (doc_id : String) (now : Nat)
    (history_uid conf_uid content : String) (s : Store) : Store :=
  if pyStrip content = "" then s
  else (add_item doc_id now ROLE_USER_PROFILE (pyStrip content)
    history_uid conf_uid s).2

/-- Stable insertion used to model Python's `list.sort(key=..., reverse=True)`
on the timestamp: `list.sort` is a stable sort, so among equal timestamps
the original (insertion) order is preserved. -/
def insertDesc (x : MemoryItem) : List MemoryItem → List MemoryItem
  | [] => [x]
  | y :: ys =>
    if y.timestamp ≤ x.timestamp then x :: y :: ys else y :: insertDesc x ys

/-- Stable sort by timestamp, newest first (equal timestamps keep their
original relative order, as Python's stable `sort` with `reverse=True`
does). -/
def sortByTsDesc (l : List MemoryItem) : List MemoryItem := l.foldr insertDesc []

/-- The metadata filter built by `get_user_profile`: role is
`user_profile`, `history_uid` matches, and `conf_uid` matches when the
argument is truthy (non-empty) — the source only adds the `conf_uid`
clause `if conf_uid:`. -/
def profileWhere (history_uid conf_uid : String) (it : MemoryItem) : Bool :=
  it.role == ROLE_USER_PROFILE && it.history_uid == history_uid &&
    (conf_uid == "" || it.conf_uid == conf_uid)

/-- `DialogueMemory.get_user_profile`: fetch matching items, sort by
timestamp descending (stable), return the stripped content of the first,
or the empty string when nothing matches. -/
def get_user_profile (history_uid conf_uid : String) (s : Store) : String :=
  match sortByTsDesc (s.filter (profileWhere history_uid conf_uid)) with
  | [] => ""
  | x :: _ => pyStrip x.content

/-- `DialogueMemory.add_to_user_profile`: no-op when blank, else read the
current profile, append a bullet line, and write a new profile item. -/
def add_to_user_profile (doc_id : String) (now : Nat)
    (history_uid conf_uid new_fact : String) (s : Store) : Store :=
  if pyStrip new_fact = "" then s
  else
    let current := get_user_profile history_uid conf_uid s
    let merged :=
      if current ≠ "" then current ++ "\n- " ++ pyStrip new_fact
      else "- " ++ pyStrip new_fact
    (add_item doc_id now ROLE_USER_PROFILE merged history_uid conf_uid s).2

/-! ### C5: blank writes are no-ops; stored content is stripped and
non-empty -/

/-- Invariant of the data model: every stored item's content is stripped
text that is non-empty. -/
def StoredOK (s : Store) : Prop :=
  ∀ it ∈ s, pyStrip it.content = it.content ∧ it.content ≠ ""

lemma add_item_blank (doc_id : String) (now : Nat)
    (role content history_uid conf_uid : String) (s : Store)
    (h : pyStrip content = "") :
    add_item doc_id now role content history_uid conf_uid s = ("", s) := by
  unfold add_item
  rw [if_pos h]

lemma add_item_StoredOK (doc_id : String) (now : Nat)
    (role content history_uid conf_uid : String) (s : Store)
    (hs : StoredOK s) :
    StoredOK (add_item doc_id now role content history_uid conf_uid s).2 := by
  unfold add_item
  by_cases h : pyStrip content = ""
  · rw [if_pos h]; exact hs
  · rw [if_neg h]
    intro it hit
    rcases List.mem_append.mp hit with hold | hnew
    · exact hs it hold
    · have : it = ⟨doc_id, pyStrip content, role, history_uid, conf_uid, now⟩ := by
        simpa using hnew
      subst this
      exact ⟨pyStrip_idem content, h⟩

lemma set_user_profile_StoredOK (doc_id : String) (now : Nat)
    (history_uid conf_uid content : String) (s : Store) (hs : StoredOK s) :
    StoredOK (set_user_profile doc_id now history_uid conf_uid content s) := by
  unfold set_user_profile
  by_cases h : pyStrip content = ""
  · rw [if_pos h]; exact hs
  · rw [if_neg h]
    exact add_item_StoredOK _ _ _ _ _ _ _ hs

lemma add_to_user_profile_StoredOK (doc_id : String) (now : Nat)
    (history_uid conf_uid new_fact : String) (s : Store) (hs : StoredOK s) :
    StoredOK (add_to_user_profile doc_id now history_uid conf_uid new_fact s) := by
  unfold add_to_user_profile
  by_cases h : pyStrip new_fact = ""
  · rw [if_pos h]; exact hs
  · rw [if_neg h]
    exact add_item_StoredOK _ _ _ _ _ _ _ hs

/-- C5: `add_item` with blank content is a silent no-op returning the empty
id and leaving the store (hence `count()`) unchanged; and every write path
(`add_item`, `set_user_profile`, `add_to_user_profile`) preserves the
invariant that stored items have stripped, non-empty content. -/
theorem C5_blank_noop_and_trim_invariant :
    (∀ doc_id now role content history_uid conf_uid s,
      pyStrip content = "" →
        add_item doc_id now role content history_uid conf_uid s = ("", s)) ∧
    (∀ doc_id now role content history_uid conf_uid s, StoredOK s →
      StoredOK (add_item doc_id now role content history_uid conf_uid s).2) ∧
    (∀ doc_id now history_uid conf_uid content s, StoredOK s →
      StoredOK (set_user_profile doc_id now history_uid conf_uid content s)) ∧
    (∀ doc_id now history_uid conf_uid new_fact s, StoredOK s →
      StoredOK (add_to_user_profile doc_id now history_uid conf_uid new_fact s)) :=
  ⟨fun a b c d e f g h => add_item_blank a b c d e f g h,
   fun a b c d e f g h => add_item_StoredOK a b c d e f g h,
   fun a b c d e f h => set_user_profile_StoredOK a b c d e f h,
   fun a b c d e f h => add_to_user_profile_StoredOK a b c d e f h⟩

/-- Witness for C5: a whitespace-only write on the empty store is a no-op,
and a non-blank write to the empty store preserves the invariant. -/
theorem C5_blank_noop_and_trim_invariant_witness :
    pyStrip "   " = "" ∧
      add_item "id9" 7 ROLE_USER "   " "h" "c" [] = ("", []) ∧
      StoredOK (add_item "id8" 7 ROLE_USER " hello " "h" "c" []).2 :=
  ⟨by decide,
   C5_blank_noop_and_trim_invariant.1 "id9" 7 ROLE_USER "   " "h" "c" []
     (by decide),
   C5_blank_noop_and_trim_invariant.2.1 "id8" 7 ROLE_USER " hello " "h" "c" []
     (fun it h => absurd h (List.not_mem_nil it))⟩

/-! ### C6: which profile is "the latest" -/

/-- Specification-side selection: the item with the maximum timestamp,
ties resolved to the earliest-stored item (what Python's stable descending
sort followed by `paired[0]` computes). -/
def firstMaxByTs : List MemoryItem → Option MemoryItem
  | [] => none
  | x :: xs =>
    match firstMaxByTs xs with
    | none => some x
    | some y => if y.timestamp ≤ x.timestamp then some x else some y

lemma head?_insertDesc (x : MemoryItem) (l : List MemoryItem) :
    (insertDesc x l).head? =
      match l.head? with
      | none => some x
      | some y => if y.timestamp ≤ x.timestamp then some x else some y := by
  cases l with
  | nil => rfl
  | cons y ys =>
    unfold insertDesc
    by_cases hc : y.timestamp ≤ x.timestamp
    · rw [if_pos hc]
      simp [hc]
    · rw [if_neg hc]
      simp [hc]

lemma head?_sortByTsDesc (l : List MemoryItem) :
    (sortByTsDesc l).head? = firstMaxByTs l := by
  induction l with
  | nil => rfl
  | cons x xs ih =>
    show (insertDesc x (sortByTsDesc xs)).head? = _
    rw [head?_insertDesc, ih]
    cases h : firstMaxByTs xs <;> simp [firstMaxByTs, h]

lemma firstMaxByTs_append_max (l : List MemoryItem) (x : MemoryItem)
    (h : ∀ y ∈ l, y.timestamp < x.timestamp) :
    firstMaxByTs (l ++ [x]) = some x := by
  induction l with
  | nil => rfl
  | cons a l ih =>
    have ha := h a (List.mem_cons_self a l)
    have ihh := ih fun y hy => h y (List.mem_cons_of_mem a hy)
    rw [List.cons_append]
    show (match firstMaxByTs (l ++ [x]) with
      | none => some a
      | some y => if y.timestamp ≤ a.timestamp then some a else some y) = some x
    rw [ihh]
    show (if x.timestamp ≤ a.timestamp then some a else some x) = some x
    rw [if_neg (by omega)]

/-- `get_user_profile` computes the stripped content of the
maximum-timestamp matching item (earliest-stored on ties), or `""`. -/
lemma get_user_profile_eq_firstMax (history_uid conf_uid : String) (s : Store) :
    get_user_profile history_uid conf_uid s =
      match firstMaxByTs (s.filter (profileWhere history_uid conf_uid)) with
      | none => ""
      | some it => pyStrip it.content := by
  unfold get_user_profile
  have h := head?_sortByTsDesc (s.filter (profileWhere history_uid conf_uid))
  cases hs : sortByTsDesc (s.filter (profileWhere history_uid conf_uid)) with
  | nil =>
    rw [hs] at h
    rw [← h]
    rfl
  | cons x xs =>
    rw [hs] at h
    rw [← h]
    rfl

/-- A non-blank `set_user_profile` call appends exactly one `user_profile`
item carrying the stripped content and the write-time timestamp. -/
lemma set_user_profile_nonblank (doc_id : String) (now : Nat)
    (history_uid conf_uid content : String) (s : Store)
    (h : pyStrip content ≠ "") :
    set_user_profile doc_id now history_uid conf_uid content s =
      s ++ [⟨doc_id, pyStrip content, ROLE_USER_PROFILE,
        history_uid, conf_uid, now⟩] := by
  unfold set_user_profile add_item
  rw [if_neg h, if_neg (by rw [pyStrip_idem]; exact h)]
  simp [pyStrip_idem]

/-- C6 counterexample: two successive `setUserProfile` calls that land in
the same integer second (timestamps are `int(now.timestamp())`, second
granularity) tie on timestamp; the stable descending sort then keeps the
earlier write first, so `getUserProfile` returns the FIRST content, not the
second — refuting the claim that it always returns the second call's
content. -/
theorem C6_same_second_counterexample :
    get_user_profile "h" "c"
      (set_user_profile "d2" 100 "h" "c" "B"
        (set_user_profile "d1" 100 "h" "c" "A" [])) = "A" ∧
      ("A" : String) ≠ "B" := by
  decide

/-- C6 (amended): `get_user_profile` returns the stripped content of the
maximum-timestamp `user_profile` item matching the scope, ties resolved to
the earliest-stored item (empty string when none matches); hence two
successive `setUserProfile` calls yield the second content whenever the
second call's timestamp strictly exceeds the first's and those of all
pre-existing items — the clock must have advanced; with equal timestamps
the first write is returned. -/
theorem C6_latest_profile_amended :
    (∀ history_uid conf_uid s,
      get_user_profile history_uid conf_uid s =
        match firstMaxByTs (s.filter (profileWhere history_uid conf_uid)) with
        | none => ""
        | some it => pyStrip it.content) ∧
    (∀ doc1 doc2 t1 t2 history_uid conf_uid A B s,
      pyStrip B ≠ "" →
      t1 < t2 →
      (∀ it ∈ s, it.timestamp < t2) →
      get_user_profile history_uid conf_uid
        (set_user_profile doc2 t2 history_uid conf_uid B
          (set_user_profile doc1 t1 history_uid conf_uid A s)) = pyStrip B) := by
  constructor
  · exact get_user_profile_eq_firstMax
  · intro doc1 doc2 t1 t2 history_uid conf_uid A B s hB ht hs
    set s1 := set_user_profile doc1 t1 history_uid conf_uid A s with hs1def
    have hs1 : ∀ it ∈ s1, it.timestamp < t2 := by
      intro it hit
      by_cases hA : pyStrip A = ""
      · rw [hs1def] at hit
        unfold set_user_profile at hit
        rw [if_pos hA] at hit
        exact hs it hit
      · rw [hs1def, set_user_profile_nonblank _ _ _ _ _ _ hA] at hit
        rcases List.mem_append.mp hit with hold | hnew
        · exact hs it hold
        · have : it = ⟨doc1, pyStrip A, ROLE_USER_PROFILE,
              history_uid, conf_uid, t1⟩ := by simpa using hnew
          rw [this]
          exact ht
    rw [set_user_profile_nonblank _ _ _ _ _ _ hB]
    rw [get_user_profile_eq_firstMax]
    rw [List.filter_append]
    have hfB : (List.filter (profileWhere history_uid conf_uid)
        [⟨doc2, pyStrip B, ROLE_USER_PROFILE, history_uid, conf_uid, t2⟩]) =
        [⟨doc2, pyStrip B, ROLE_USER_PROFILE, history_uid, conf_uid, t2⟩] := by
      simp only [List.filter_cons, List.filter_nil]
      rw [if_pos ?_]
      unfold profileWhere
      simp
    rw [hfB]
    rw [firstMaxByTs_append_max _ _
      (fun y hy => hs1 y (List.mem_of_mem_filter hy))]
    exact pyStrip_idem B

/-- Witness for C6: from the empty store, two writes at strictly increasing
timestamps return the second content. -/
theorem C6_latest_profile_amended_witness :
    pyStrip "B" ≠ "" ∧
      get_user_profile "h" "c"
        (set_user_profile "d2" 1 "h" "c" "B"
          (set_user_profile "d1" 0 "h" "c" "A" [])) = pyStrip "B" :=
  ⟨by decide,
   C6_latest_profile_amended.2 "d1" "d2" 0 1 "h" "c" "A" "B" []
     (by decide) (by decide) (fun it h => absurd h (List.not_mem_nil it))⟩

/-! ### Retention cleanup (`DialogueMemory.delete_older_than_days`) -/

/-- The metadata filter built by `delete_older_than_days`:
`timestamp < cutoff`, `history_uid` matches when the argument is truthy
(the source only adds the clause `if history_uid:`), and the role is not in
the exclusion set (`$nin`). -/
def retentionWhere (cutoff : Int) (history_uid : Option String)
    (exclude : List String) (it : MemoryItem) : Bool :=
  decide ((it.timestamp : Int) < cutoff) &&
    (match history_uid with
     | none => true
     | some hu => if hu = "" then true else it.history_uid == hu) &&
    !(decide (it.role ∈ exclude))

/-- `DialogueMemory.delete_older_than_days`: resolve the exclusion set with
Python's `exclude_roles or PERSISTENT_ROLES` (so `None` and the falsy empty
set both fall back to the persistent roles), compute the cutoff
`now − days` (in seconds), collect the ids of matching items, delete those
ids, and return how many.  `now` is the clock passed in explicitly. -/
def delete_older_than_days (days : Nat) (history_uid : Option String)
    (exclude_roles : Option (List String)) (now : Int) (s : Store) :
    Nat × Store :=
  let exclude := match exclude_roles with
    | some l => if l = [] then PERSISTENT_ROLES else l
    | none => PERSISTENT_ROLES
  let cutoff : Int := now - (days : Int) * 86400
  let ids := (s.filter (retentionWhere cutoff history_uid exclude)).map (·.id)
  if ids = [] then (0, s)
  else (ids.length, s.filter fun it => !(decide (it.id ∈ ids)))

/-- With unique document ids (ids are fresh uuids in the source), deleting
the collected ids is the same as filtering out the items matched by the
retention predicate; the count returned is the number of matched items. -/
lemma delete_older_eq_filter (days : Nat) (hu : Option String) (now : Int)
    (s : Store) (hids : (s.map MemoryItem.id).Nodup) :
    delete_older_than_days days hu none now s =
      ((s.filter (retentionWhere (now - (days : Int) * 86400) hu
          PERSISTENT_ROLES)).length,
        s.filter fun it =>
          !(retentionWhere (now - (days : Int) * 86400) hu
            PERSISTENT_ROLES it)) := by
  unfold delete_older_than_days
  set p := retentionWhere (now - (days : Int) * 86400) hu PERSISTENT_ROLES
    with hpdef
  by_cases hnil : (s.filter p).map (·.id) = []
  · rw [if_pos hnil]
    have hfe : s.filter p = [] := List.map_eq_nil_iff.mp hnil
    have hall : ∀ a ∈ s, ¬ p a := List.filter_eq_nil_iff.mp hfe
    rw [hfe]
    have : s.filter (fun it => !(p it)) = s := by
      apply List.filter_eq_self.mpr
      intro a ha
      simpa using hall a ha
    rw [this]
    rfl
  · rw [if_neg hnil]
    have hinj := List.inj_on_of_nodup_map hids
    have key : ∀ it ∈ s,
        (!(decide (it.id ∈ (s.filter p).map (·.id)))) = !(p it) := by
      intro it hit
      by_cases hpit : p it = true
      · have hmem : it.id ∈ (s.filter p).map (·.id) :=
          List.mem_map.mpr ⟨it, List.mem_filter.mpr ⟨hit, hpit⟩, rfl⟩
        rw [hpit, decide_eq_true hmem]
      · have hnmem : it.id ∉ (s.filter p).map (·.id) := by
          intro hmem
          obtain ⟨m, hmf, hmid⟩ := List.mem_map.mp hmem
          obtain ⟨hms, hmp⟩ := List.mem_filter.mp hmf
          have : m = it := hinj hms hit hmid
          rw [this] at hmp
          exact hpit hmp
        rw [decide_eq_false hnmem, Bool.eq_false_iff.mpr hpit]
    rw [List.filter_congr key, List.length_map]

/-- Items with a persistent role (`fact`, `user_profile`) survive every
default-exclusion retention sweep, regardless of age (requires unique ids,
which the uuid generator guarantees). -/
lemma delete_none_preserves_persistent (days : Nat) (hu : Option String)
    (now : Int) (s : Store) (hids : (s.map MemoryItem.id).Nodup) :
    ∀ it ∈ s, it.role ∈ PERSISTENT_ROLES →
      it ∈ (delete_older_than_days days hu none now s).2 := by
  intro it hit hrole
  rw [delete_older_eq_filter days hu now s hids]
  apply List.mem_filter.mpr
  refine ⟨hit, ?_⟩
  unfold retentionWhere
  rw [decide_eq_true hrole]
  simp

/-- C7: with no `excludeRoles` override, the retention sweep deletes
exactly the items with `timestamp < now − days` (seconds), role outside
`{fact, user_profile}`, and matching `history_uid` when given; it returns
the number deleted; and every `fact`/`user_profile` item remains stored
regardless of age.  Holds for every `days`, including `days = 0`. -/
theorem C7_retention_policy (days : Nat) (hu : Option String) (now : Int)
    (s : Store) (hids : (s.map MemoryItem.id).Nodup) :
    (delete_older_than_days days hu none now s).2 =
        (s.filter fun it =>
          !(retentionWhere (now - (days : Int) * 86400) hu
            PERSISTENT_ROLES it)) ∧
      (delete_older_than_days days hu none now s).1 =
        (s.filter (retentionWhere (now - (days : Int) * 86400) hu
          PERSISTENT_ROLES)).length ∧
      ∀ it ∈ s, it.role ∈ PERSISTENT_ROLES →
        it ∈ (delete_older_than_days days hu none now s).2 := by
  refine ⟨?_, ?_, delete_none_preserves_persistent days hu now s hids⟩
  · rw [delete_older_eq_filter days hu now s hids]
  · rw [delete_older_eq_filter days hu now s hids]

/-- A two-item store (an old fact and an old user message) used by the
retention witnesses. -/
def demoStore : Store :=
  [⟨"a", "likes tea", ROLE_FACT, "h", "c", 0⟩,
   ⟨"b", "hello", ROLE_USER, "h", "c", 0⟩]

/-- Witness for C7: at `days = 0` on `demoStore` the old fact survives. -/
theorem C7_retention_policy_witness :
    (demoStore.map MemoryItem.id).Nodup ∧
      ∀ it ∈ demoStore, it.role ∈ PERSISTENT_ROLES →
        it ∈ (delete_older_than_days 0 none none 1000000 demoStore).2 :=
  ⟨by decide, (C7_retention_policy 0 none 1000000 demoStore (by decide)).2.2⟩

/-- C10: passing the empty set for `exclude_roles` behaves exactly as the
default (`exclude_roles or PERSISTENT_ROLES` treats the falsy empty set as
absent), so persistent roles cannot be made deletable this way. -/
theorem C10_empty_exclude_defaults :
    (∀ days hu now s,
      delete_older_than_days days hu (some []) now s =
        delete_older_than_days days hu none now s) ∧
    (∀ days hu now (s : Store), (s.map MemoryItem.id).Nodup →
      ∀ it ∈ s, it.role ∈ PERSISTENT_ROLES →
        it ∈ (delete_older_than_days days hu (some []) now s).2) := by
  have heq : ∀ days hu now s,
      delete_older_than_days days hu (some []) now s =
        delete_older_than_days days hu none now s := by
    intro days hu now s
    rfl
  refine ⟨heq, ?_⟩
  intro days hu now s hids
  rw [heq]
  exact delete_none_preserves_persistent days hu now s hids

/-- Witness for C10: on `demoStore`, the empty exclusion set still keeps
the old fact. -/
theorem C10_empty_exclude_defaults_witness :
    (demoStore.map MemoryItem.id).Nodup ∧
      ∀ it ∈ demoStore, it.role ∈ PERSISTENT_ROLES →
        it ∈ (delete_older_than_days 0 none (some []) 1000000 demoStore).2 :=
  ⟨by decide,
   C10_empty_exclude_defaults.2 0 none 1000000 demoStore (by decide)⟩

/-! ### Similarity query (`DialogueMemory.query`)

The vector store adapter's similarity search is the external collaborator:
it is modelled, per the spec's adapter interface, as an arbitrary ranking
oracle `rank : query text → candidate items → ranked items`, from which the
façade takes the top `min(n_results, count)` results (`k` clamped to the
collection size, never negative).  The façade code around it —
the empty-store early return, the truthiness-guarded `where` clauses, the
skip of empty documents — is translated from the source. -/

/-- The metadata filter built by `DialogueMemory.query`: each of
`history_uid` / `conf_uid` / `roles` contributes an AND-ed clause only when
truthy. -/
def queryWhere (history_uid conf_uid : Option String)
    (roles : Option (List String)) (it : MemoryItem) : Bool :=
  (match history_uid with
   | none => true
   | some hu => if hu = "" then true else it.history_uid == hu) &&
  (match conf_uid with
   | none => true
   | some cu => if cu = "" then true else it.conf_uid == cu) &&
  (match roles with
   | none => true
   | some rs => if rs = [] then true else decide (it.role ∈ rs))

/-- `DialogueMemory.query`: return `[]` on an empty store; otherwise ask
the adapter for `min(n_results, count)` most-similar filtered items and
return `(content, id, metadata)` tuples, skipping entries with empty
content. -/
def dialogueQuery (rank : String → List MemoryItem → List MemoryItem)
    (query_text : String) (n_results : Int)
    (history_uid conf_uid : Option String) (roles : Option (List String))
    (s : Store) : List (String × String × MemoryItem) :=
  if s.length = 0 then []
  else
    (((rank query_text
          (s.filter (queryWhere history_uid conf_uid roles))).take
        (min n_results (s.length : Int)).toNat).filter
      (fun it => it.content != "")).map fun it => (it.content, it.id, it)

/-- C2: for every ranking behaviour of the adapter and every argument,
`query` returns the empty list without error when the store is empty, and
likewise when the effective result count `min(n, count)` is non-positive
(in particular for `n ≤ 0` on a non-empty store). -/
theorem C2_query_empty_or_nonpositive
    (rank : String → List MemoryItem → List MemoryItem) (query_text : String)
    (n_results : Int) (hu cu : Option String) (roles : Option (List String))
    (s : Store) :
    (s = [] →
      dialogueQuery rank query_text n_results hu cu roles s = []) ∧
    (min n_results (s.length : Int) ≤ 0 →
      dialogueQuery rank query_text n_results hu cu roles s = []) := by
  constructor
  · intro h
    subst h
    rfl
  · intro h
    unfold dialogueQuery
    by_cases hl : s.length = 0
    · rw [if_pos hl]
    · rw [if_neg hl, Int.toNat_of_nonpos h]
      simp

/-- Witness for C2: empty store with `n = 5`, and a one-item store with
`n = 0`. -/
theorem C2_query_empty_or_nonpositive_witness :
    dialogueQuery (fun _ l => l) "q" 5 none none none [] = [] ∧
      dialogueQuery (fun _ l => l) "q" 0 none none none
        [⟨"a", "likes tea", ROLE_FACT, "h", "c", 0⟩] = [] :=
  ⟨(C2_query_empty_or_nonpositive (fun _ l => l) "q" 5 none none none []).1
     rfl,
   (C2_query_empty_or_nonpositive (fun _ l => l) "q" 0 none none none
     [⟨"a", "likes tea", ROLE_FACT, "h", "c", 0⟩]).2 (by decide)⟩

/-! ### Consolidation scheduler (`process_memory_background`) -/

def FACT_EXTRACT_EVERY : Nat := 3
def SUMMARY_EVERY : Nat := 6

/-- The fact-extraction cadence condition of the source:
`message_count >= FACT_EXTRACT_EVERY and
(message_count - FACT_EXTRACT_EVERY) % FACT_EXTRACT_EVERY == 0`. -/
def shouldExtractFacts (message_count : Nat) : Bool :=
  decide (FACT_EXTRACT_EVERY ≤ message_count) &&
    decide ((message_count - FACT_EXTRACT_EVERY) % FACT_EXTRACT_EVERY = 0)

/-- The summarization cadence condition of the source:
`message_count >= SUMMARY_EVERY and
(message_count - SUMMARY_EVERY) % SUMMARY_EVERY == 0`. -/
def shouldSummarize (message_count : Nat) : Bool :=
  decide (SUMMARY_EVERY ≤ message_count) &&
    decide ((message_count - SUMMARY_EVERY) % SUMMARY_EVERY = 0)

/-- C4: the scheduler runs fact extraction iff `messageCount ≥ 3` and
`(messageCount − 3) mod 3 = 0`, and summarization iff `messageCount ≥ 6`
and `(messageCount − 6) mod 6 = 0`; over counts 0..20 fact extraction fires
exactly at {3, 6, 9, 12, 15, 18} and summarization exactly at
{6, 12, 18}. -/
theorem C4_cadence :
    (∀ mc, shouldExtractFacts mc = true ↔
      (3 ≤ mc ∧ (mc - 3) % 3 = 0)) ∧
    (∀ mc, shouldSummarize mc = true ↔
      (6 ≤ mc ∧ (mc - 6) % 6 = 0)) ∧
    (List.range 21).filter shouldExtractFacts = [3, 6, 9, 12, 15, 18] ∧
    (List.range 21).filter shouldSummarize = [6, 12, 18] := by
  refine ⟨?_, ?_, by decide, by decide⟩
  · intro mc
    unfold shouldExtractFacts FACT_EXTRACT_EVERY
    simp
  · intro mc
    unfold shouldSummarize SUMMARY_EVERY
    simp

/-- Witness for C4 at the concrete count 9: fact extraction fires,
summarization does not. -/
theorem C4_cadence_witness :
    shouldExtractFacts 9 = true ∧ ¬ shouldSummarize 9 = true :=
  ⟨(C4_cadence.1 9).mpr (by decide),
   fun h => by
    have := (C4_cadence.2.1 9).mp h
    omega⟩

/-! ### C8: no exception escapes `process_memory_background`

Python `try/except Exception` is modelled by running a body that produces
`Except String Unit × Store` — an error value models a raised exception,
and the store component is the state at the point of failure, because
Python mutations before a raise persist — and mapping every outcome to
`Except.ok` (the handler merely logs).  The external collaborators (the
history reader, the three LLM calls, and the store operations, all of which
may raise) are an arbitrary `MemOps` record, so the theorem quantifies over
every behaviour of the LLM and the store. -/

/-- Oracles for everything `process_memory_background` calls that can
fail: the chat-history read, the three LLM prompts, and the store
operations.  Each store operation returns the (possibly updated) store even
on failure. -/
structure MemOps where
  getHistory : Except String (List (String × String))
  factLLM : String → Except String String
  mergeLLM : String → Except String String
  summaryLLM : String → Except String String
  addItemOp : String → String → Store → Except String String × Store
  getAllFactsOp : Store → Except String (List String) × Store
  setUserProfileOp : String → Store → Except String Unit × Store

/-- A Python `try: ... except Exception: log` block: every outcome,
success or raised exception, becomes a normal return. -/
def pyTry (r : Except String Unit × Store) : Except String Unit × Store :=
  match r with
  | (Except.error _, s) => (Except.ok (), s)
  | (Except.ok _, s) => (Except.ok (), s)

/-- Delimiters of `re.split(r"[\n•\-]", facts_text)`. -/
def isFactDelim (c : Char) : Bool := c = '\n' || c = '•' || c = '-'

/-- Split the LLM's fact response on newline/bullet delimiters, keep
stripped lines of length > 3. -/
def splitFacts (facts_text : String) : List String :=
  ((facts_text.split isFactDelim).map pyStrip).filter
    fun f => f != "" && decide (3 < f.length)

/-- Build the dialog text handed to the LLM from the recent messages
(`role, content` pairs). -/
def buildDialog (msgs : List (String × String)) : String :=
  String.intercalate "\n" (msgs.map fun m =>
    (if m.1 = "human" then "Пользователь" else "Ассистент") ++ ": " ++ m.2)

/-- Write the extracted facts one by one; a raise from the store aborts the
remaining writes (and surfaces to the enclosing `try`). -/
def addFacts (ops : MemOps) : List String → Store → Except String Unit × Store
  | [], s => (Except.ok (), s)
  | f :: fs, s =>
    match ops.addItemOp ROLE_FACT f s with
    | (Except.error e, s1) => (Except.error e, s1)
    | (Except.ok _, s1) => addFacts ops fs s1

/-- The profile-merge step: its own inner `try/except` around the LLM call
and the profile write (skipped when there are no facts to merge). -/
def mergeStep (ops : MemOps) (all_facts : List String) (s : Store) :
    Except String Unit × Store :=
  if all_facts = [] then (Except.ok (), s)
  else
    let merge_prompt := "Факты (сверху — новее):\n" ++
      String.intercalate "\n" ((all_facts.take 30).map fun f => "- " ++ f)
    pyTry
      (match ops.mergeLLM merge_prompt with
       | Except.error e => (Except.error e, s)
       | Except.ok merged =>
         if pyStrip merged = "" then (Except.ok (), s)
         else ops.setUserProfileOp merged s)

/-- The fact-extraction block: one `try/except` wrapping the LLM call, the
fact writes, the fact re-read, and the nested merge step. -/
def factStep (ops : MemOps) (dialog_text : String) (s : Store) :
    Except String Unit × Store :=
  pyTry
    (match ops.factLLM dialog_text with
     | Except.error e => (Except.error e, s)
     | Except.ok facts_text =>
       if pyStrip facts_text = "" then (Except.ok (), s)
       else
         match addFacts ops ((splitFacts facts_text).take 10) s with
         | (Except.error e, s1) => (Except.error e, s1)
         | (Except.ok _, s1) =>
           match ops.getAllFactsOp s1 with
           | (Except.error e, s2) => (Except.error e, s2)
           | (Except.ok all_facts, s2) => mergeStep ops all_facts s2)

/-- The summarization block: one `try/except` wrapping the LLM call and
the summary write. -/
def summaryStep (ops : MemOps) (dialog_text : String) (s : Store) :
    Except String Unit × Store :=
  pyTry
    (match ops.summaryLLM dialog_text with
     | Except.error e => (Except.error e, s)
     | Except.ok summary_text =>
       if pyStrip summary_text = "" then (Except.ok (), s)
       else
         match ops.addItemOp ROLE_SUMMARY (pyStrip summary_text) s with
         | (Except.error e, s1) => (Except.error e, s1)
         | (Except.ok _, s1) => (Except.ok (), s1))

/-- `process_memory_background`: early return when memory is disabled or
the ids are blank; otherwise one outer `try/except` around reading the
history, building the dialog text, and the cadence-gated fact-extraction
and summarization blocks. -/
def process_memory_background (ops : MemOps) (memory_enabled : Bool)
    (history_uid conf_uid : String) (message_count : Nat) (s : Store) :
    Except String Unit × Store :=
  if !memory_enabled || history_uid = "" || conf_uid = "" then
    (Except.ok (), s)
  else
    pyTry
      (match ops.getHistory with
       | Except.error e => (Except.error e, s)
       | Except.ok messages_raw =>
         if messages_raw = [] then (Except.ok (), s)
         else
           let recent := messages_raw.drop (messages_raw.length - 10)
           let dialog_text := buildDialog recent
           if pyStrip dialog_text = "" then (Except.ok (), s)
           else
             match (if shouldExtractFacts message_count
                    then factStep ops dialog_text s
                    else (Except.ok (), s)) with
             | (Except.error e, s1) => (Except.error e, s1)
             | (Except.ok _, s1) =>
               if shouldSummarize message_count
               then summaryStep ops dialog_text s1
               else (Except.ok (), s1))

lemma pyTry_fst (r : Except String Unit × Store) :
    (pyTry r).1 = Except.ok () := by
  rcases r with ⟨e | u, s⟩ <;> rfl

/-- C8: for every behaviour of the history reader, the LLM, and the store
(including any raised exception in fact extraction, fact writing, fact
re-reading, profile merging, profile writing, or summarization),
`process_memory_background` returns normally: no exception propagates to
its caller. -/
theorem C8_no_exception_propagates (ops : MemOps) (memory_enabled : Bool)
    (history_uid conf_uid : String) (message_count : Nat) (s : Store) :
    (process_memory_background ops memory_enabled history_uid conf_uid
      message_count s).1 = Except.ok () := by
  unfold process_memory_background
  split
  · rfl
  · exact pyTry_fst _

/-- Oracles for the C8 witness in which every collaborator raises. -/
def failingOps : MemOps where
  getHistory := Except.ok [("human", "привет")]
  factLLM := fun _ => Except.error "llm down"
  mergeLLM := fun _ => Except.error "llm down"
  summaryLLM := fun _ => Except.error "llm down"
  addItemOp := fun _ _ s => (Except.error "store down", s)
  getAllFactsOp := fun s => (Except.error "store down", s)
  setUserProfileOp := fun _ s => (Except.error "store down", s)

/-- Witness for C8: even with every collaborator raising, the call at
message count 6 (both cadences fire) returns normally. -/
theorem C8_no_exception_propagates_witness :
    (process_memory_background failingOps true "h" "c" 6 []).1 =
      Except.ok () :=
  C8_no_exception_propagates failingOps true "h" "c" 6 []

end Vtuber
